import Mathlib

/-!
Verification development for the watermark application.

The program watches input directories for media files and writes watermarked
copies to output directories.  The embedding below models, faithfully to the
Python source (`app.py`):

* `escape_text_for_ffmpeg` — the drawtext escaping transformation (strings are
  modelled as `List Char`; Python's single-character `str.replace` is
  `replaceChar`);
* `get_default_font` — the font lookup with fall-through to the library
  default (the font environment is a function from font name and size to
  `Option PILFont`, `none` standing for a raised `OSError`);
* `add_watermark_to_image` — the still-image compositor, rendered as a list of
  drawing operations against an abstract text-measuring capability;
* `filter_parts` / `video_filter` / `build_video_cmd` /
  `add_watermark_to_video` — the video filter-graph compiler and the single
  external-command invocation (the external tool is a function from the
  argument list to an `ExecResult`);
* `process_file` / `process_all` — the processing pipeline over an abstract
  filesystem (`List Path` of existing paths), with the render and unlink
  behaviours supplied as parameters;
* `RaceState` / `raceStep` — an interleaving model of two pipeline calls
  racing on the same input path (the steps of `process_file`: idempotency
  check, lock acquisition, render-and-commit).
-/

namespace Watermark

/-! ## Text escaping (`escape_text_for_ffmpeg`, app.py lines 183-198) -/

/-- The backslash character. -/
def backslashChar : Char := '\\'

/-- The single-quote character (code point 39). -/
def squoteChar : Char := Char.ofNat 39

/-- The double-quote character (code point 34). -/
def dquoteChar : Char := Char.ofNat 34

/-- Python's `str.replace(old, new)` for a single-character pattern:
every occurrence of `old` is replaced by `new`. -/
def replaceChar (old : Char) (new : List Char) : List Char → List Char
  | [] => []
  | c :: rest => (if c = old then new else [c]) ++ replaceChar old new rest

/-- The escaping chain of `escape_text_for_ffmpeg`, in source order:
newline, colon, single quote, double quote, equals, open bracket,
close bracket.  Innermost is applied first. -/
def escapeChars (s : List Char) : List Char :=
  replaceChar ']' [backslashChar, ']']
    (replaceChar '[' [backslashChar, '[']
      (replaceChar '=' [backslashChar, '=']
        (replaceChar dquoteChar [backslashChar, dquoteChar]
          (replaceChar squoteChar [backslashChar, squoteChar]
            (replaceChar ':' [backslashChar, ':']
              (replaceChar '\n' [backslashChar, 'n'] s))))))

/-- `escape_text_for_ffmpeg` on `String`s. -/
def escape_text_for_ffmpeg (s : String) : String :=
  String.mk (escapeChars s.data)

/-- The per-character image of the escaping chain (derived form, proved equal
to `escapeChars` on single characters). -/
def escChar (c : Char) : List Char :=
  if c = '\n' then [backslashChar, 'n']
  else if c = ':' then [backslashChar, ':']
  else if c = squoteChar then [backslashChar, squoteChar]
  else if c = dquoteChar then [backslashChar, dquoteChar]
  else if c = '=' then [backslashChar, '=']
  else if c = '[' then [backslashChar, '[']
  else if c = ']' then [backslashChar, ']']
  else [c]

/-- Scanner: every colon in the list is immediately preceded by a backslash.
`prev` is the character just before the current position, if any. -/
def colonsEscapedAux : Option Char → List Char → Bool
  | _, [] => true
  | prev, c :: rest =>
      ((c != ':') || (prev == some backslashChar)) && colonsEscapedAux (some c) rest

/-- The character preceding position `u.length` when scanning `u` after `p`. -/
def lastPrev (p : Option Char) : List Char → Option Char
  | [] => p
  | c :: rest => lastPrev (some c) rest

/-- Contiguous-substring relation on character lists. -/
def containsSub (pat s : List Char) : Prop :=
  ∃ u v, s = u ++ (pat ++ v)

/-- Splitting accumulator for `splitLines`; `cur` holds the current line in
reverse. -/
def splitLinesAux (cur : List Char) : List Char → List (List Char)
  | [] => [cur.reverse]
  | c :: rest =>
      if c = '\n' then cur.reverse :: splitLinesAux [] rest
      else splitLinesAux (c :: cur) rest

/-- Python's `text.split('\n')`: split on line breaks; the empty string
yields one empty line, so the result is never empty. -/
def splitLines (s : String) : List String :=
  (splitLinesAux [] s.data).map String.mk

/-- Python's `str.lower()` (character-wise lowering). -/
def lowerStr (s : String) : String :=
  String.mk (s.data.map Char.toLower)

/-! ## Font lookup (`get_default_font`, app.py lines 91-104) -/

/-- A font value of the drawing library: a loaded truetype font, or the
library's built-in default. -/
inductive PILFont where
  | truetype (name : String) (size : Nat)
  | builtinDefault
deriving DecidableEq

/-- `get_default_font`: try `arial.ttf`, then `DejaVuSans.ttf`, then the
macOS Arial path, falling back to the library default.  The environment
`tt` models `ImageFont.truetype`; `none` stands for a raised `OSError`,
which the source catches at each step. -/
def get_default_font (tt : String → Nat → Option PILFont) (size : Nat) : PILFont :=
  match tt "arial.ttf" size with
  | some f => f
  | none =>
    match tt "DejaVuSans.ttf" size with
    | some f => f
    | none =>
      match tt "/System/Library/Fonts/Arial.ttf" size with
      | some f => f
      | none => PILFont.builtinDefault

/-- The candidate font names, in source order. -/
def fontCandidates : List String :=
  ["arial.ttf", "DejaVuSans.ttf", "/System/Library/Fonts/Arial.ttf"]

/-- Modelled from the spec side of the claim: the first candidate font that
loads, else the built-in default.  Compared with `get_default_font`. -/
def fontFallback (tt : String → Nat → Option PILFont) (size : Nat) : PILFont :=
  (fontCandidates.findSome? (fun n => tt n size)).getD PILFont.builtinDefault

/-! ## Watermark configuration (`config['watermark']`) -/

/-- The watermark section of the configuration.  `background_color` is an
`Option` so that a configuration with the key absent is representable; the
source reads the key unconditionally (a missing key raises `KeyError`). -/
structure WatermarkCfg where
  text : String
  font_size : Nat
  font_color : Nat × Nat × Nat
  background_color : Option (Nat × Nat × Nat)
  padding : Nat
  margin : Nat
deriving DecidableEq

/-! ## Still-image compositor (`add_watermark_to_image`, app.py lines 106-181)

The drawing capability is abstracted: `measure l` is the `(width, height)`
of one line under the active font (`draw.textbbox`), and the render result
is the list of drawing operations issued against the overlay. -/

/-- A drawing operation on the overlay. -/
inductive DrawOp where
  | rect (x0 y0 x1 y1 : Int) (color : Nat × Nat × Nat)
  | textLine (x y : Int) (content : String) (color : Nat × Nat × Nat)
deriving DecidableEq

/-- The text-drawing loop of `add_watermark_to_image`: each line is drawn at
`(xText, curY)` and `curY` advances by the line's measured height plus the
fixed 5-pixel inter-line spacing. -/
def drawTextLines (measure : String → Nat × Nat) (color : Nat × Nat × Nat)
    (xText : Int) : Int → List String → List DrawOp
  | _, [] => []
  | curY, l :: rest =>
      DrawOp.textLine xText curY l color ::
        drawTextLines measure color xText (curY + ((measure l).2 : Int) + 5) rest

/-- `add_watermark_to_image`: split the text on line breaks, measure each
line, take the maximum width and the sum of heights plus 5-pixel spacing,
add twice the padding, centre the rectangle on the image, draw the
background rectangle and then the text lines at the rectangle origin plus
padding.  Reading `background_color` is unconditional in the source
(line 124); a configuration without it raises `KeyError`, modelled as the
error case.  Positions use Python floor division (`Int.fdiv`). -/
def add_watermark_to_image (measure : String → Nat × Nat) (cfg : WatermarkCfg)
    (imgW imgH : Int) : Except String (List DrawOp) :=
  match cfg.background_color with
  | none => Except.error "KeyError: background_color"
  | some bg =>
    let lines := splitLines cfg.text
    let text_width : Nat := (lines.map fun l => (measure l).1).foldl Nat.max 0
    let text_height : Int :=
      (lines.map fun l => ((measure l).2 : Int)).sum + ((lines.length : Int) - 1) * 5
    let watermark_width : Int := (text_width : Int) + 2 * (cfg.padding : Int)
    let watermark_height : Int := text_height + 2 * (cfg.padding : Int)
    let x : Int := Int.fdiv (imgW - watermark_width) 2
    let y : Int := Int.fdiv (imgH - watermark_height) 2
    Except.ok
      (DrawOp.rect x y (x + watermark_width) (y + watermark_height) bg ::
        drawTextLines measure cfg.font_color (x + (cfg.padding : Int))
          (y + (cfg.padding : Int)) lines)

/-- Label width as the layout computes it: maximum of measured line widths. -/
def labelWidth (measure : String → Nat × Nat) (text : String) : Nat :=
  ((splitLines text).map fun l => (measure l).1).foldl Nat.max 0

/-- Label height as the layout computes it: sum of measured line heights plus
the 5-pixel inter-line spacing times (line count minus one). -/
def labelHeight (measure : String → Nat × Nat) (text : String) : Int :=
  ((splitLines text).map fun l => ((measure l).2 : Int)).sum +
    (((splitLines text).length : Int) - 1) * 5

/-! ## Video filter-graph compiler (`add_watermark_to_video`, app.py
lines 236-319) -/

/-- The `drawtext` parameter segments, in source order (app.py lines
256-265).  The source includes the box parameters and the time-varying
vertical position unconditionally; only the text and the font size come
from the configuration. -/
def filter_parts (cfg : WatermarkCfg) : List String :=
  ["text=" ++ escape_text_for_ffmpeg cfg.text,
   "fontsize=" ++ toString cfg.font_size,
   "fontcolor=white@0.8",
   "x=(w-text_w)/2",
   "y=30+(h-text_h-60)*t/duration",
   "box=1",
   "boxcolor=black@0.5",
   "boxborderw=10"]

/-- The compiled filter expression: the segments joined with `:` behind
`drawtext=` (app.py lines 278 and 291). -/
def video_filter (cfg : WatermarkCfg) : String :=
  "drawtext=" ++ String.intercalate ":" (filter_parts cfg)

/-- The full external-tool argument list (app.py lines 268-297).  The audio
branch is taken when both an audio file and a probed duration are available;
the duration is carried as the already-formatted string spliced into the
audio filter. -/
def build_video_cmd (cfg : WatermarkCfg) (input output : String)
    (audio_file : Option String) (video_duration : Option String) : List String :=
  match audio_file, video_duration with
  | some af, some dur =>
      ["ffmpeg", "-i", input, "-i", af,
       "-filter_complex",
       "[1:a]aloop=loop=-1:size=2e+09,atrim=duration=" ++ dur ++
         "[looped_audio];[0:v]" ++ video_filter cfg ++ "[watermarked_video]",
       "-map", "[watermarked_video]", "-map", "[looped_audio]",
       "-c:v", "libx264", "-c:a", "aac", "-shortest", "-y", output]
  | _, _ =>
      ["ffmpeg", "-i", input, "-vf", video_filter cfg, "-c:a", "copy", "-y", output]

/-- The candidate commands the compiler produces.  The source builds exactly
one command (one escaping strategy); there is no fallback chain. -/
def video_candidate_cmds (cfg : WatermarkCfg) (input output : String)
    (audio_file : Option String) (video_duration : Option String) : List (List String) :=
  [build_video_cmd cfg input output audio_file video_duration]

/-- Outcome of one external-command execution: a normal exit with a status
code and stderr, or the 600-second timeout firing
(`subprocess.TimeoutExpired`). -/
inductive ExecResult where
  | exited (code : Int) (stderr : String)
  | timedOut
deriving DecidableEq

/-- The errors `add_watermark_to_video` can raise to its caller. -/
inductive VideoError where
  | calledProcess (code : Int) (stderr : String)
  | timeoutExpired
deriving DecidableEq

/-- `add_watermark_to_video`'s invocation policy (app.py lines 302-319): run
the single compiled command; exit status zero succeeds, a nonzero status
raises `CalledProcessError`, and a timeout propagates as
`TimeoutExpired` (the `except` block logs and re-raises). -/
def add_watermark_to_video (execF : List String → ExecResult) (cfg : WatermarkCfg)
    (input output : String) (audio_file : Option String)
    (video_duration : Option String) : Except VideoError Unit :=
  match execF (build_video_cmd cfg input output audio_file video_duration) with
  | ExecResult.exited code err =>
      if code = 0 then Except.ok ()
      else Except.error (VideoError.calledProcess code err)
  | ExecResult.timedOut => Except.error VideoError.timeoutExpired

/-- An executor that always times out. -/
def execAlwaysTimeout : List String → ExecResult :=
  fun _ => ExecResult.timedOut

/-- An executor that always exits with status zero. -/
def execAlwaysOk : List String → ExecResult :=
  fun _ => ExecResult.exited 0 ""

/-! ## Processing pipeline (`process_file`, app.py lines 321-365)

The filesystem is abstracted as the list of existing paths.  A path carries
its directory, stem and extension (the attributes of `pathlib.Path` the
source uses).  The render step and the unlink behaviour are parameters, so
failure injection is expressible. -/

/-- A filesystem path, as the source consumes it: directory, stem and
extension.  `name` is stem plus extension. -/
structure Path where
  dir : String
  stem : String
  ext : String
deriving DecidableEq

/-- `Path.name`: base name including the extension. -/
def Path.name (p : Path) : String := p.stem ++ p.ext

/-- The folder/format configuration the pipeline consults. -/
structure PipelineEnv where
  image_exts : List String
  video_exts : List String
  audio_exts : List String
  output_images_dir : String
  output_videos_dir : String
deriving DecidableEq

/-- `is_image_file`: lower-cased suffix membership in the configured image
formats. -/
def is_image_file (env : PipelineEnv) (p : Path) : Bool :=
  decide (lowerStr p.ext ∈ env.image_exts)

/-- `is_video_file`: lower-cased suffix membership in the configured video
formats. -/
def is_video_file (env : PipelineEnv) (p : Path) : Bool :=
  decide (lowerStr p.ext ∈ env.video_exts)

/-- `is_audio_file`: lower-cased suffix membership in the configured audio
formats. -/
def is_audio_file (env : PipelineEnv) (p : Path) : Bool :=
  decide (lowerStr p.ext ∈ env.audio_exts)

/-- `is_supported_file`: suffix membership in images plus videos (app.py
lines 67-74). -/
def is_supported_file (env : PipelineEnv) (p : Path) : Bool :=
  decide (lowerStr p.ext ∈ env.image_exts ++ env.video_exts)

/-- Output-path derivation (app.py lines 333-340): the role's output
directory plus the source file's name, or `none` for an unknown type. -/
def output_path (env : PipelineEnv) (input : Path) : Option Path :=
  if is_image_file env input then some ⟨env.output_images_dir, input.stem, input.ext⟩
  else if is_video_file env input then some ⟨env.output_videos_dir, input.stem, input.ext⟩
  else none

/-- How an injected render behaves on a given input: succeed (output file
committed), raise after partially writing the output, or raise without
having written anything. -/
inductive RenderOutcome where
  | success
  | failWithOutput
  | failNoOutput
deriving DecidableEq

/-- The resolution of one pipeline call. -/
inductive JobStatus where
  | notFound
  | unsupported
  | skipped
  | committed
  | failed
deriving DecidableEq

/-- `process_file`: existence check, classification, output-path derivation,
idempotency check, then (under the lock) the render; any render exception is
caught, and a partially written output is unlinked best-effort — a failing
unlink is swallowed (`unlinkOk` injects that behaviour).  The function is
total: no exception propagates to the caller. -/
def process_file (env : PipelineEnv) (render : Path → RenderOutcome)
    (unlinkOk : Path → Bool) (fs : List Path) (input : Path) : JobStatus × List Path :=
  if input ∈ fs then
    if is_supported_file env input then
      match output_path env input with
      | none => (JobStatus.unsupported, fs)
      | some out =>
        if out ∈ fs then (JobStatus.skipped, fs)
        else
          match render input with
          | RenderOutcome.success => (JobStatus.committed, out :: fs)
          | RenderOutcome.failWithOutput =>
              if unlinkOk out then (JobStatus.failed, (out :: fs).erase out)
              else (JobStatus.failed, out :: fs)
          | RenderOutcome.failNoOutput => (JobStatus.failed, fs)
    else (JobStatus.unsupported, fs)
  else (JobStatus.notFound, fs)

/-- `process_existing_files` over an explicit job list: fold `process_file`
over the inputs, threading the filesystem. -/
def process_all (env : PipelineEnv) (render : Path → RenderOutcome)
    (unlinkOk : Path → Bool) : List Path → List Path → List JobStatus × List Path
  | [], fs => ([], fs)
  | i :: rest, fs =>
      let r := process_file env render unlinkOk fs i
      let rr := process_all env render unlinkOk rest r.2
      (r.1 :: rr.1, rr.2)

/-! ## Audio matching (`find_matching_audio`, app.py lines 200-215) -/

/-- A directory entry: a path and whether it is a regular file. -/
def DirEntry : Type := Path × Bool

/-- `find_matching_audio`: first pass returns the first audio file whose stem
equals the video's stem; second pass returns the first audio file; else
`none`.  `entries` is the audio input directory listing in iteration
order. -/
def find_matching_audio (env : PipelineEnv) (entries : List (Path × Bool))
    (video_path : Path) : Option Path :=
  match entries.find? (fun e =>
      e.2 && is_audio_file env e.1 && (e.1.stem == video_path.stem)) with
  | some e => some e.1
  | none =>
    match entries.find? (fun e => e.2 && is_audio_file env e.1) with
    | some e => some e.1
    | none => none

/-! ## Two racing pipeline calls (interleaving model)

Each thread runs the `process_file` steps for the same fresh input path:
`pc = 0`: about to run the idempotency check (output-exists);
`pc = 1`: check passed, waiting on the lock;
`pc = 2`: holding the lock, about to render;
`pc = 3`: done (either skipped, or rendered and committed).
The lock is acquired only after the check, exactly as in the source, and
the check is not repeated after acquisition. -/

/-- Joint state of the two racing pipeline calls. -/
structure RaceState where
  pc0 : Fin 4
  pc1 : Fin 4
  sk0 : Bool
  sk1 : Bool
  outExists : Bool
  lock : Option Bool
deriving DecidableEq, Fintype

/-- Initial state: both threads at the idempotency check, no output file,
lock free. -/
def raceInit : RaceState :=
  { pc0 := 0, pc1 := 0, sk0 := false, sk1 := false, outExists := false, lock := none }

/-- One step of thread 0. -/
def stepThread0 (s : RaceState) : RaceState :=
  if s.pc0 = 0 then
    (if s.outExists then { s with pc0 := 3, sk0 := true } else { s with pc0 := 1 })
  else if s.pc0 = 1 then
    (if s.lock = none then { s with pc0 := 2, lock := some false } else s)
  else if s.pc0 = 2 then { s with pc0 := 3, outExists := true, lock := none }
  else s

/-- One step of thread 1. -/
def stepThread1 (s : RaceState) : RaceState :=
  if s.pc1 = 0 then
    (if s.outExists then { s with pc1 := 3, sk1 := true } else { s with pc1 := 1 })
  else if s.pc1 = 1 then
    (if s.lock = none then { s with pc1 := 2, lock := some true } else s)
  else if s.pc1 = 2 then { s with pc1 := 3, outExists := true, lock := none }
  else s

/-- Scheduler step: `false` steps thread 0, `true` steps thread 1. -/
def raceStep (s : RaceState) (t : Bool) : RaceState :=
  if t then stepThread1 s else stepThread0 s

/-- Run a schedule from the initial state. -/
def raceRun (sched : List Bool) : RaceState :=
  sched.foldl raceStep raceInit

/-- Thread 0 finished by rendering (not by skipping). -/
def rendered0 (s : RaceState) : Bool := (s.pc0 == 3) && !s.sk0

/-- Thread 1 finished by rendering (not by skipping). -/
def rendered1 (s : RaceState) : Bool := (s.pc1 == 3) && !s.sk1

/-- Number of renders performed so far. -/
def numRenders (s : RaceState) : Nat :=
  (if rendered0 s then 1 else 0) + (if rendered1 s then 1 else 0)

/-- Number of skips performed so far. -/
def numSkips (s : RaceState) : Nat :=
  (if s.sk0 then 1 else 0) + (if s.sk1 then 1 else 0)

/-- Both threads have finished. -/
def bothDone (s : RaceState) : Bool := (s.pc0 == 3) && (s.pc1 == 3)

/-- Inductive invariant of the race: the output file exists exactly when some
thread has finished a render, and a thread skips only once the output
exists. -/
def raceInv (s : RaceState) : Bool :=
  (s.outExists == (rendered0 s || rendered1 s)) &&
    (!s.sk0 || s.outExists) && (!s.sk1 || s.outExists)

/-! ## Concrete fixtures for evaluation -/

/-- A concrete text-measuring capability: width 10 per character, height 20
per line. -/
def measureDemo : String → Nat × Nat := fun l => (10 * l.length, 20)

/-- A watermark configuration without a background color. -/
def cfgNoBackground : WatermarkCfg :=
  { text := "Line1\nLine2", font_size := 24, font_color := (255, 255, 255),
    background_color := none, padding := 10, margin := 20 }

/-- A single-line watermark configuration with a background color. -/
def cfgSingleLine : WatermarkCfg :=
  { text := "Hi", font_size := 24, font_color := (255, 255, 255),
    background_color := some (0, 0, 0), padding := 5, margin := 20 }

/-- A concrete pipeline configuration. -/
def envDemo : PipelineEnv :=
  { image_exts := [".jpg", ".png"], video_exts := [".mp4"], audio_exts := [".mp3"],
    output_images_dir := "output_images", output_videos_dir := "output_videos" }

/-- A concrete input image path. -/
def inputDemo : Path := ⟨"input_images", "photo", ".jpg"⟩

/-- The output path `process_file` derives for `inputDemo` under `envDemo`. -/
def outputDemo : Path := ⟨"output_images", "photo", ".jpg"⟩

/-- A render that always raises after partially writing the output. -/
def renderFailPartial : Path → RenderOutcome := fun _ => RenderOutcome.failWithOutput

/-- A render that always succeeds. -/
def renderSuccess : Path → RenderOutcome := fun _ => RenderOutcome.success

/-- An unlink that always succeeds. -/
def unlinkAlways : Path → Bool := fun _ => true

/-- A concrete audio directory listing containing a stem-matching file. -/
def entriesDemo : List (Path × Bool) :=
  [(⟨"input_audio", "other", ".mp3"⟩, true), (⟨"input_audio", "clip", ".mp3"⟩, true)]

/-- A concrete video path whose stem matches the second audio entry. -/
def videoDemo : Path := ⟨"input_videos", "clip", ".mp4"⟩

/-! ## Escaping lemmas (claim C2) -/

theorem replaceChar_append (old : Char) (new : List Char) (u v : List Char) :
    replaceChar old new (u ++ v) = replaceChar old new u ++ replaceChar old new v := by
  induction u with
  | nil => rfl
  | cons c t ih => simp [replaceChar, ih]

theorem escapeChars_append (u v : List Char) :
    escapeChars (u ++ v) = escapeChars u ++ escapeChars v := by
  simp [escapeChars, replaceChar_append]

theorem escapeChars_singleton (c : Char) : escapeChars [c] = escChar c := by
  by_cases h1 : c = '\n'
  · subst h1; decide
  by_cases h2 : c = ':'
  · subst h2; decide
  by_cases h3 : c = squoteChar
  · subst h3; decide
  by_cases h4 : c = dquoteChar
  · subst h4; decide
  by_cases h5 : c = '='
  · subst h5; decide
  by_cases h6 : c = '['
  · subst h6; decide
  by_cases h7 : c = ']'
  · subst h7; decide
  simp [escapeChars, replaceChar, escChar, h1, h2, h3, h4, h5, h6, h7]

theorem escapeChars_cons (c : Char) (t : List Char) :
    escapeChars (c :: t) = escChar c ++ escapeChars t := by
  have h : c :: t = [c] ++ t := rfl
  rw [h, escapeChars_append, escapeChars_singleton]

theorem colonsEscapedAux_append (u v : List Char) (p : Option Char) :
    colonsEscapedAux p (u ++ v) =
      (colonsEscapedAux p u && colonsEscapedAux (lastPrev p u) v) := by
  induction u generalizing p with
  | nil => simp [colonsEscapedAux, lastPrev]
  | cons c t ih => simp [colonsEscapedAux, lastPrev, ih, Bool.and_assoc]

theorem colonsEscapedAux_pair (p : Option Char) (x : Char) :
    colonsEscapedAux p [backslashChar, x] = true := by
  have h1 : (backslashChar != ':') = true := by decide
  simp [colonsEscapedAux, h1]

theorem colonsEscapedAux_escChar (p : Option Char) (c : Char) :
    colonsEscapedAux p (escChar c) = true := by
  by_cases h1 : c = '\n'
  · subst h1
    have h : escChar '\n' = [backslashChar, 'n'] := by decide
    rw [h]; exact colonsEscapedAux_pair p 'n'
  by_cases h2 : c = ':'
  · subst h2
    have h : escChar ':' = [backslashChar, ':'] := by decide
    rw [h]; exact colonsEscapedAux_pair p ':'
  by_cases h3 : c = squoteChar
  · subst h3
    have h : escChar squoteChar = [backslashChar, squoteChar] := by decide
    rw [h]; exact colonsEscapedAux_pair p squoteChar
  by_cases h4 : c = dquoteChar
  · subst h4
    have h : escChar dquoteChar = [backslashChar, dquoteChar] := by decide
    rw [h]; exact colonsEscapedAux_pair p dquoteChar
  by_cases h5 : c = '='
  · subst h5
    have h : escChar '=' = [backslashChar, '='] := by decide
    rw [h]; exact colonsEscapedAux_pair p '='
  by_cases h6 : c = '['
  · subst h6
    have h : escChar '[' = [backslashChar, '['] := by decide
    rw [h]; exact colonsEscapedAux_pair p '['
  by_cases h7 : c = ']'
  · subst h7
    have h : escChar ']' = [backslashChar, ']'] := by decide
    rw [h]; exact colonsEscapedAux_pair p ']'
  have he : escChar c = [c] := by simp [escChar, h1, h2, h3, h4, h5, h6, h7]
  rw [he]
  simp [colonsEscapedAux, h2]

theorem colonsEscapedAux_escapeChars (s : List Char) :
    ∀ p, colonsEscapedAux p (escapeChars s) = true := by
  induction s with
  | nil => intro p; rfl
  | cons c t ih =>
      intro p
      rw [escapeChars_cons, colonsEscapedAux_append, colonsEscapedAux_escChar, ih]
      rfl

/-- C2: the Standard escaping replaces line breaks by backslash-n and then
escapes `:`, single quote, double quote, `=`, `[`, `]` with a preceding
backslash, without ever escaping a backslash; any input containing
`contact: 123` yields an output containing `contact\: 123`, and every colon
in the output is immediately preceded by a backslash. -/
theorem c2_standard_escaping (s : List Char)
    (h : containsSub ("contact: 123".data) s) :
    containsSub ("contact\\: 123".data) (escapeChars s) ∧
    colonsEscapedAux none (escapeChars s) = true ∧
    (∀ t : List Char, escapeChars ('\n' :: t) = backslashChar :: 'n' :: escapeChars t) ∧
    (∀ t : List Char, escapeChars (backslashChar :: t) = backslashChar :: escapeChars t) := by
  obtain ⟨u, v, rfl⟩ := h
  refine ⟨⟨escapeChars u, escapeChars v, ?_⟩, colonsEscapedAux_escapeChars _ none, ?_, ?_⟩
  · rw [escapeChars_append, escapeChars_append,
      show escapeChars ("contact: 123".data) = "contact\\: 123".data from by decide]
  · intro t
    rw [escapeChars_cons, show escChar '\n' = [backslashChar, 'n'] from by decide]
    rfl
  · intro t
    rw [escapeChars_cons, show escChar backslashChar = [backslashChar] from by decide]
    rfl

/-- Witness for C2 at the concrete input `contact: 123`. -/
theorem c2_witness :
    containsSub ("contact\\: 123".data) (escapeChars ("contact: 123".data)) ∧
    colonsEscapedAux none (escapeChars ("contact: 123".data)) = true := by
  have h := c2_standard_escaping ("contact: 123".data) ⟨[], [], by simp⟩
  exact ⟨h.1, h.2.1⟩

/-! ## Font fallback (claim C10) -/

/-- C10: `get_default_font` is total — for every truetype-lookup environment
it returns the first candidate that loads, else the library's built-in
default; a lookup failure (`OSError`, modelled as `none`) falls through to
the next candidate and never propagates. -/
theorem c10_font_fallback (tt : String → Nat → Option PILFont) (size : Nat) :
    get_default_font tt size = fontFallback tt size := by
  cases h1 : tt "arial.ttf" size <;>
    cases h2 : tt "DejaVuSans.ttf" size <;>
      cases h3 : tt "/System/Library/Fonts/Arial.ttf" size <;>
        simp [get_default_font, fontFallback, fontCandidates, List.findSome?, h1, h2, h3]

/-! ## Still-image compositor (claims C5, C6) -/

/-- C5 counterexample: with no background color configured, the image render
does not succeed — the source reads `background_color` unconditionally, so
the render fails with a key-lookup error instead of drawing the text without
a rectangle. -/
theorem c5_counterexample :
    add_watermark_to_image measureDemo cfgNoBackground 800 600 =
      Except.error "KeyError: background_color" := rfl

/-- C5 amended: the background color is required by the image path.  When it
is absent the render fails with the key-lookup error; when it is present a
background rectangle is always drawn (first operation), and the text lines
are drawn starting at the rectangle origin plus the configured padding. -/
theorem c5_amended_background_required (measure : String → Nat × Nat)
    (cfg : WatermarkCfg) (W H : Int) :
    (cfg.background_color = none →
      add_watermark_to_image measure cfg W H =
        Except.error "KeyError: background_color") ∧
    (∀ bg, cfg.background_color = some bg →
      ∃ x0 y0 x1 y1,
        add_watermark_to_image measure cfg W H =
          Except.ok (DrawOp.rect x0 y0 x1 y1 bg ::
            drawTextLines measure cfg.font_color (x0 + (cfg.padding : Int))
              (y0 + (cfg.padding : Int)) (splitLines cfg.text))) := by
  constructor
  · intro h
    unfold add_watermark_to_image
    rw [h]
  · intro bg h
    refine ⟨Int.fdiv (W - ((labelWidth measure cfg.text : Int) + 2 * (cfg.padding : Int))) 2,
            Int.fdiv (H - (labelHeight measure cfg.text + 2 * (cfg.padding : Int))) 2,
            Int.fdiv (W - ((labelWidth measure cfg.text : Int) + 2 * (cfg.padding : Int))) 2 +
              ((labelWidth measure cfg.text : Int) + 2 * (cfg.padding : Int)),
            Int.fdiv (H - (labelHeight measure cfg.text + 2 * (cfg.padding : Int))) 2 +
              (labelHeight measure cfg.text + 2 * (cfg.padding : Int)), ?_⟩
    unfold add_watermark_to_image
    rw [h]
    rfl

/-- Witness for C5 at concrete configurations with and without a background
color. -/
theorem c5_witness :
    add_watermark_to_image measureDemo cfgNoBackground 800 600 =
        Except.error "KeyError: background_color" ∧
    ∃ x0 y0 x1 y1,
      add_watermark_to_image measureDemo cfgSingleLine 800 600 =
        Except.ok (DrawOp.rect x0 y0 x1 y1 (0, 0, 0) ::
          drawTextLines measureDemo cfgSingleLine.font_color
            (x0 + (cfgSingleLine.padding : Int)) (y0 + (cfgSingleLine.padding : Int))
            (splitLines cfgSingleLine.text)) :=
  ⟨(c5_amended_background_required measureDemo cfgNoBackground 800 600).1 rfl,
   (c5_amended_background_required measureDemo cfgSingleLine 800 600).2 (0, 0, 0) rfl⟩

/-- C6 counterexample: for the single-line label `Hi` measured at 20×20 with
padding 5 and margin 20 on an 800×600 image, the rectangle's far edges are
(415, 315) — the centred placement — not `(imageWidth - margin,
imageHeight - margin) = (780, 580)`: the source has no bottom-right
placement and never uses the margin. -/
theorem c6_counterexample :
    add_watermark_to_image measureDemo cfgSingleLine 800 600 =
      Except.ok [DrawOp.rect 385 285 415 315 (0, 0, 0),
                 DrawOp.textLine 390 290 "Hi" (255, 255, 255)] ∧
    ¬((415 : Int) = 800 - 20 ∧ (315 : Int) = 600 - 20) := by
  exact ⟨rfl, by decide⟩

/-- C6 amended: the layout computes label width as the maximum of measured
line widths and label height as the sum of measured line heights plus
5-pixel spacing times (line count − 1); for a single-line label the
rectangle's dimensions equal the measured width and height plus twice the
padding; but placement is centred — `x = (W - rectWidth) fdiv 2`,
`y = (H - rectHeight) fdiv 2` — and the configured margin is unused. -/
theorem c6_amended_layout (measure : String → Nat × Nat) (cfg : WatermarkCfg)
    (bg : Nat × Nat × Nat) (W H : Int) (h : cfg.background_color = some bg) :
    (∃ ops,
      add_watermark_to_image measure cfg W H =
        Except.ok (DrawOp.rect
          (Int.fdiv (W - ((labelWidth measure cfg.text : Int) + 2 * (cfg.padding : Int))) 2)
          (Int.fdiv (H - (labelHeight measure cfg.text + 2 * (cfg.padding : Int))) 2)
          (Int.fdiv (W - ((labelWidth measure cfg.text : Int) + 2 * (cfg.padding : Int))) 2 +
            ((labelWidth measure cfg.text : Int) + 2 * (cfg.padding : Int)))
          (Int.fdiv (H - (labelHeight measure cfg.text + 2 * (cfg.padding : Int))) 2 +
            (labelHeight measure cfg.text + 2 * (cfg.padding : Int)))
          bg :: ops)) ∧
    (∀ l, splitLines cfg.text = [l] →
      labelWidth measure cfg.text = (measure l).1 ∧
      labelHeight measure cfg.text = ((measure l).2 : Int)) := by
  constructor
  · have heq : add_watermark_to_image measure cfg W H =
        Except.ok (DrawOp.rect
          (Int.fdiv (W - ((labelWidth measure cfg.text : Int) + 2 * (cfg.padding : Int))) 2)
          (Int.fdiv (H - (labelHeight measure cfg.text + 2 * (cfg.padding : Int))) 2)
          (Int.fdiv (W - ((labelWidth measure cfg.text : Int) + 2 * (cfg.padding : Int))) 2 +
            ((labelWidth measure cfg.text : Int) + 2 * (cfg.padding : Int)))
          (Int.fdiv (H - (labelHeight measure cfg.text + 2 * (cfg.padding : Int))) 2 +
            (labelHeight measure cfg.text + 2 * (cfg.padding : Int)))
          bg ::
          drawTextLines measure cfg.font_color
            (Int.fdiv (W - ((labelWidth measure cfg.text : Int) + 2 * (cfg.padding : Int))) 2 +
              (cfg.padding : Int))
            (Int.fdiv (H - (labelHeight measure cfg.text + 2 * (cfg.padding : Int))) 2 +
              (cfg.padding : Int))
            (splitLines cfg.text)) := by
      unfold add_watermark_to_image
      rw [h]
      rfl
    exact ⟨_, heq⟩
  · intro l hl
    constructor
    · simp [labelWidth, hl]
    · simp [labelHeight, hl]

/-- Witness for C6 at the concrete single-line configuration. -/
theorem c6_witness :
    labelWidth measureDemo cfgSingleLine.text = (measureDemo "Hi").1 ∧
    labelHeight measureDemo cfgSingleLine.text = ((measureDemo "Hi").2 : Int) :=
  (c6_amended_layout measureDemo cfgSingleLine (0, 0, 0) 800 600 rfl).2 "Hi" rfl

/-! ## Video filter expression (claims C7, C1) -/

/-- C7 counterexample: with no background color configured, the compiled
filter parts still contain the box parameters and the time-varying vertical
position — they are unconditional in the source, not gated on the
configuration. -/
theorem c7_counterexample :
    cfgNoBackground.background_color = none ∧
    "box=1" ∈ filter_parts cfgNoBackground ∧
    "boxcolor=black@0.5" ∈ filter_parts cfgNoBackground ∧
    "boxborderw=10" ∈ filter_parts cfgNoBackground ∧
    "y=30+(h-text_h-60)*t/duration" ∈ filter_parts cfgNoBackground := by
  decide

/-- C7 amended: the box parameters (box, box color with fixed opacity,
border width) and the time-varying vertical position expression are included
in every compiled filter expression, regardless of the configuration; the
expression is assembled by joining the discrete `key=value` segments
with `:`. -/
theorem c7_amended_box_always (cfg : WatermarkCfg) :
    ("box=1" ∈ filter_parts cfg ∧ "boxcolor=black@0.5" ∈ filter_parts cfg ∧
     "boxborderw=10" ∈ filter_parts cfg ∧
     "y=30+(h-text_h-60)*t/duration" ∈ filter_parts cfg) ∧
    video_filter cfg =
      "drawtext=text=" ++ escape_text_for_ffmpeg cfg.text ++ ":fontsize=" ++
        toString cfg.font_size ++
        ":fontcolor=white@0.8:x=(w-text_w)/2:y=30+(h-text_h-60)*t/duration:box=1:boxcolor=black@0.5:boxborderw=10" := by
  constructor
  · refine ⟨?_, ?_, ?_, ?_⟩ <;> simp [filter_parts]
  · show "drawtext=" ++ String.intercalate ":" (filter_parts cfg) = _
    simp only [filter_parts, String.intercalate, String.intercalate.go, String.append_assoc]
    rw [← String.append_assoc "drawtext=" "text=",
        show ("drawtext=" : String) ++ "text=" = "drawtext=text=" from rfl]
    congr 1

/-- C1 counterexample: the compiler produces a single candidate command (not
three escaping strategies), and an external-tool timeout makes the job fail
immediately — no further strategy is attempted. -/
theorem c1_counterexample :
    (video_candidate_cmds cfgNoBackground "in.mp4" "out.mp4" none none).length = 1 ∧
    ¬(video_candidate_cmds cfgNoBackground "in.mp4" "out.mp4" none none).length = 3 ∧
    add_watermark_to_video execAlwaysTimeout cfgNoBackground "in.mp4" "out.mp4" none none =
      Except.error VideoError.timeoutExpired :=
  ⟨rfl, by decide, rfl⟩

/-- C1 amended: the compiler produces exactly one candidate command, built
with the Standard escaping; the caller executes it once, succeeding exactly
on exit status zero, raising `CalledProcessError` on a nonzero status, and
raising `TimeoutExpired` on a timeout (an immediate job failure — there is
no fallback strategy). -/
theorem c1_amended_single_command (execF : List String → ExecResult)
    (cfg : WatermarkCfg) (input output : String) (audio_file : Option String)
    (video_duration : Option String) :
    video_candidate_cmds cfg input output audio_file video_duration =
      [build_video_cmd cfg input output audio_file video_duration] ∧
    (∀ e, execF (build_video_cmd cfg input output audio_file video_duration) =
        ExecResult.exited 0 e →
      add_watermark_to_video execF cfg input output audio_file video_duration =
        Except.ok ()) ∧
    (∀ c e, execF (build_video_cmd cfg input output audio_file video_duration) =
        ExecResult.exited c e → ¬c = 0 →
      add_watermark_to_video execF cfg input output audio_file video_duration =
        Except.error (VideoError.calledProcess c e)) ∧
    (execF (build_video_cmd cfg input output audio_file video_duration) =
        ExecResult.timedOut →
      add_watermark_to_video execF cfg input output audio_file video_duration =
        Except.error VideoError.timeoutExpired) := by
  refine ⟨rfl, ?_, ?_, ?_⟩
  · intro e h
    simp [add_watermark_to_video, h]
  · intro c e h hc
    simp [add_watermark_to_video, h, hc]
  · intro h
    simp [add_watermark_to_video, h]

/-- Witness for C1: a concrete executor exiting zero yields success, and a
concrete timing-out executor yields the timeout error. -/
theorem c1_witness :
    add_watermark_to_video execAlwaysOk cfgNoBackground "in.mp4" "out.mp4" none none =
        Except.ok () ∧
    add_watermark_to_video execAlwaysTimeout cfgNoBackground "in.mp4" "out.mp4" none none =
        Except.error VideoError.timeoutExpired :=
  ⟨(c1_amended_single_command execAlwaysOk cfgNoBackground "in.mp4" "out.mp4"
      none none).2.1 "" rfl,
   (c1_amended_single_command execAlwaysTimeout cfgNoBackground "in.mp4" "out.mp4"
      none none).2.2.2 rfl⟩

/-! ## Pipeline lemmas (claims C3, C4) -/

theorem output_path_supported (env : PipelineEnv) (input out : Path)
    (h : output_path env input = some out) : is_supported_file env input = true := by
  unfold output_path at h
  by_cases him : is_image_file env input = true
  · simp only [is_image_file, decide_eq_true_eq] at him
    simp [is_supported_file, List.mem_append, him]
  · by_cases hiv : is_video_file env input = true
    · simp only [is_video_file, decide_eq_true_eq] at hiv
      simp [is_supported_file, List.mem_append, hiv]
    · simp [him, hiv] at h

theorem process_file_skips (env : PipelineEnv) (render : Path → RenderOutcome)
    (unlinkOk : Path → Bool) (fs : List Path) (input out : Path)
    (h1 : input ∈ fs) (h2 : output_path env input = some out) (h3 : out ∈ fs) :
    process_file env render unlinkOk fs input = (JobStatus.skipped, fs) := by
  have hsupp := output_path_supported env input out h2
  simp [process_file, h1, hsupp, h2, h3]

theorem process_file_fs_mono (env : PipelineEnv) (render : Path → RenderOutcome)
    (unlinkOk : Path → Bool) (fs : List Path) (input : Path) :
    ∀ q ∈ fs, q ∈ (process_file env render unlinkOk fs input).2 := by
  intro q hq
  unfold process_file
  repeat' split
  all_goals first
    | exact hq
    | simp_all [List.mem_cons, List.erase_cons_head]

theorem process_file_commits (env : PipelineEnv) (render : Path → RenderOutcome)
    (unlinkOk : Path → Bool) (fs : List Path) (input out : Path)
    (h1 : input ∈ fs) (h2 : output_path env input = some out)
    (hr : render input = RenderOutcome.success) :
    out ∈ (process_file env render unlinkOk fs input).2 := by
  have hsupp := output_path_supported env input out h2
  by_cases h3 : out ∈ fs
  · simp [process_file, h1, hsupp, h2, h3]
  · simp [process_file, h1, hsupp, h2, h3, hr, List.mem_cons]

theorem process_all_fs_mono (env : PipelineEnv) (render : Path → RenderOutcome)
    (unlinkOk : Path → Bool) :
    ∀ (inputs fs : List Path) (q : Path), q ∈ fs →
      q ∈ (process_all env render unlinkOk inputs fs).2 := by
  intro inputs
  induction inputs with
  | nil => intro fs q hq; exact hq
  | cons i rest ih =>
      intro fs q hq
      exact ih _ _ (process_file_fs_mono env render unlinkOk fs i q hq)

theorem process_all_commits (env : PipelineEnv) (render : Path → RenderOutcome)
    (unlinkOk : Path → Bool) :
    ∀ (inputs fs : List Path), (∀ i ∈ inputs, i ∈ fs) →
      (∀ i ∈ inputs, render i = RenderOutcome.success) →
      ∀ i ∈ inputs, ∀ out, output_path env i = some out →
        out ∈ (process_all env render unlinkOk inputs fs).2 := by
  intro inputs
  induction inputs with
  | nil => intro fs _ _ i hi; cases hi
  | cons j rest ih =>
      intro fs hin hr i hi out hout
      rcases List.mem_cons.mp hi with heq | hi2
      · subst heq
        have hcommit := process_file_commits env render unlinkOk fs i out
          (hin i (List.mem_cons_self i rest)) hout (hr i (List.mem_cons_self i rest))
        exact process_all_fs_mono env render unlinkOk rest _ out hcommit
      · exact ih _
          (fun x hx => process_file_fs_mono env render unlinkOk fs j x
            (hin x (List.mem_cons_of_mem j hx)))
          (fun x hx => hr x (List.mem_cons_of_mem j hx)) i hi2 out hout

theorem process_all_all_skipped (env : PipelineEnv) (render : Path → RenderOutcome)
    (unlinkOk : Path → Bool) :
    ∀ (inputs fs : List Path),
      (∀ i ∈ inputs, i ∈ fs ∧ ∃ out, output_path env i = some out ∧ out ∈ fs) →
      process_all env render unlinkOk inputs fs =
        (inputs.map fun _ => JobStatus.skipped, fs) := by
  intro inputs
  induction inputs with
  | nil => intro fs _; rfl
  | cons j rest ih =>
      intro fs h
      obtain ⟨hj, out, hout, houtfs⟩ := h j (List.mem_cons_self j rest)
      have hskip := process_file_skips env render unlinkOk fs j out hj hout houtfs
      simp [process_all, hskip, ih fs (fun x hx => h x (List.mem_cons_of_mem j hx))]

/-- C3: any render failure is caught — the pipeline call returns normally
with a `failed` status for every unlink behaviour (the cleanup swallows
unlink errors) — and when the best-effort deletion succeeds (or nothing was
written), the target output path does not exist afterwards. -/
theorem c3_render_failure_cleanup (env : PipelineEnv) (render : Path → RenderOutcome)
    (unlinkOk : Path → Bool) (fs : List Path) (input out : Path)
    (h1 : input ∈ fs) (h2 : output_path env input = some out) (h3 : out ∉ fs)
    (h4 : ¬render input = RenderOutcome.success) :
    (process_file env render unlinkOk fs input).1 = JobStatus.failed ∧
    (unlinkOk out = true → out ∉ (process_file env render unlinkOk fs input).2) ∧
    (render input = RenderOutcome.failNoOutput →
      (process_file env render unlinkOk fs input).2 = fs) := by
  have hsupp := output_path_supported env input out h2
  cases hrender : render input with
  | success => exact absurd hrender h4
  | failWithOutput =>
      by_cases hu : unlinkOk out = true
      · simp [process_file, h1, hsupp, h2, h3, hrender, hu, List.erase_cons_head]
      · simp [process_file, h1, hsupp, h2, h3, hrender, hu]
  | failNoOutput =>
      simp [process_file, h1, hsupp, h2, h3, hrender]

/-- Witness for C3 at a concrete failing render. -/
theorem c3_witness :
    (process_file envDemo renderFailPartial unlinkAlways [inputDemo] inputDemo).1 =
        JobStatus.failed ∧
    (unlinkAlways outputDemo = true →
      outputDemo ∉
        (process_file envDemo renderFailPartial unlinkAlways [inputDemo] inputDemo).2) :=
  ⟨(c3_render_failure_cleanup envDemo renderFailPartial unlinkAlways [inputDemo]
      inputDemo outputDemo (by decide) (by decide) (by decide) (by decide)).1,
   (c3_render_failure_cleanup envDemo renderFailPartial unlinkAlways [inputDemo]
      inputDemo outputDemo (by decide) (by decide) (by decide) (by decide)).2.1⟩

/-- C4: processing is idempotent keyed by output name — a job whose output
already exists is skipped with the filesystem unchanged (for every render
behaviour), and a second pipeline run over the same inputs changes nothing
and resolves every job to `skipped`. -/
theorem c4_idempotent (env : PipelineEnv) (render : Path → RenderOutcome)
    (unlinkOk : Path → Bool) (inputs fs : List Path)
    (hin : ∀ i ∈ inputs, i ∈ fs)
    (hout : ∀ i ∈ inputs, ∃ out, output_path env i = some out)
    (hr : ∀ i ∈ inputs, render i = RenderOutcome.success) :
    (∀ i out, i ∈ fs → output_path env i = some out → out ∈ fs →
      process_file env render unlinkOk fs i = (JobStatus.skipped, fs)) ∧
    process_all env render unlinkOk inputs
        ((process_all env render unlinkOk inputs fs).2) =
      ((inputs.map fun _ => JobStatus.skipped),
        (process_all env render unlinkOk inputs fs).2) := by
  constructor
  · intro i out hi ho hofs
    exact process_file_skips env render unlinkOk fs i out hi ho hofs
  · apply process_all_all_skipped
    intro i hi
    refine ⟨process_all_fs_mono env render unlinkOk inputs fs i (hin i hi), ?_⟩
    obtain ⟨out, ho⟩ := hout i hi
    exact ⟨out, ho, process_all_commits env render unlinkOk inputs fs hin hr i hi out ho⟩

/-- Witness for C4 at a concrete one-file run: the second run leaves the
filesystem unchanged and reports `skipped`. -/
theorem c4_witness :
    process_all envDemo renderSuccess unlinkAlways [inputDemo]
        ((process_all envDemo renderSuccess unlinkAlways [inputDemo] [inputDemo]).2) =
      ([JobStatus.skipped],
        (process_all envDemo renderSuccess unlinkAlways [inputDemo] [inputDemo]).2) :=
  (c4_idempotent envDemo renderSuccess unlinkAlways [inputDemo] [inputDemo]
    (by decide)
    (fun i hi => by
      rw [List.mem_singleton] at hi
      subst hi
      exact ⟨outputDemo, by decide⟩)
    (by decide)).2

/-! ## Audio selection (claim C8) -/

theorem find?_first {α : Type} (p : α → Bool) :
    ∀ (l : List α) (a : α), l.find? p = some a →
      ∃ pre post, l = pre ++ a :: post ∧ (∀ x ∈ pre, p x = false) ∧ p a = true := by
  intro l
  induction l with
  | nil => intro a h; simp [List.find?] at h
  | cons b t ih =>
      intro a h
      by_cases hb : p b = true
      · rw [List.find?_cons_of_pos _ hb] at h
        obtain rfl : b = a := by injection h
        exact ⟨[], t, rfl, fun x hx => absurd hx (List.not_mem_nil x), hb⟩
      · rw [List.find?_cons_of_neg _ (by simpa using hb)] at h
        obtain ⟨pre, post, rfl, hpre, hpa⟩ := ih a h
        refine ⟨b :: pre, post, rfl, ?_, hpa⟩
        intro x hx
        rcases List.mem_cons.mp hx with rfl | hx2
        · simpa using hb
        · exact hpre x hx2

/-- C8: `find_matching_audio` returns the first listed audio file whose stem
equals the video's stem when one exists (no earlier entry matches);
otherwise the first listed audio file when one exists; otherwise `none`. -/
theorem c8_audio_selection (env : PipelineEnv) (entries : List (Path × Bool))
    (video_path : Path) :
    ((∃ e ∈ entries, e.2 = true ∧ is_audio_file env e.1 = true ∧
        e.1.stem = video_path.stem) →
      ∃ pre e post, entries = pre ++ e :: post ∧
        find_matching_audio env entries video_path = some e.1 ∧
        e.2 = true ∧ is_audio_file env e.1 = true ∧ e.1.stem = video_path.stem ∧
        ∀ x ∈ pre, ¬(x.2 = true ∧ is_audio_file env x.1 = true ∧
          x.1.stem = video_path.stem)) ∧
    ((¬∃ e ∈ entries, e.2 = true ∧ is_audio_file env e.1 = true ∧
        e.1.stem = video_path.stem) →
      (∃ e ∈ entries, e.2 = true ∧ is_audio_file env e.1 = true) →
      ∃ pre e post, entries = pre ++ e :: post ∧
        find_matching_audio env entries video_path = some e.1 ∧
        e.2 = true ∧ is_audio_file env e.1 = true ∧
        ∀ x ∈ pre, ¬(x.2 = true ∧ is_audio_file env x.1 = true)) ∧
    ((¬∃ e ∈ entries, e.2 = true ∧ is_audio_file env e.1 = true) →
      find_matching_audio env entries video_path = none) := by
  refine ⟨?_, ?_, ?_⟩
  · rintro ⟨e0, he0, h2, h3, h4⟩
    have hp : (fun e : Path × Bool =>
        e.2 && is_audio_file env e.1 && (e.1.stem == video_path.stem)) e0 = true := by
      simp [h2, h3, h4]
    have hs : (entries.find? (fun e =>
        e.2 && is_audio_file env e.1 && (e.1.stem == video_path.stem))).isSome := by
      rw [List.find?_isSome]
      exact ⟨e0, he0, hp⟩
    obtain ⟨a, ha⟩ := Option.isSome_iff_exists.mp hs
    obtain ⟨pre, post, heq, hpre, hpa⟩ := find?_first _ entries a ha
    simp only [Bool.and_eq_true, beq_iff_eq] at hpa
    refine ⟨pre, a, post, heq, ?_, hpa.1.1, hpa.1.2, hpa.2, ?_⟩
    · unfold find_matching_audio
      rw [ha]
    · intro x hx hcon
      have h5 := hpre x hx
      simp [hcon.1, hcon.2.1, hcon.2.2] at h5
  · intro hno hex
    have hnone1 : entries.find? (fun e =>
        e.2 && is_audio_file env e.1 && (e.1.stem == video_path.stem)) = none := by
      rw [List.find?_eq_none]
      intro x hx hpx
      simp only [Bool.and_eq_true, beq_iff_eq] at hpx
      exact hno ⟨x, hx, hpx.1.1, hpx.1.2, hpx.2⟩
    obtain ⟨e0, he0, h2, h3⟩ := hex
    have hp : (fun e : Path × Bool => e.2 && is_audio_file env e.1) e0 = true := by
      simp [h2, h3]
    have hs : (entries.find? (fun e => e.2 && is_audio_file env e.1)).isSome := by
      rw [List.find?_isSome]
      exact ⟨e0, he0, hp⟩
    obtain ⟨a, ha⟩ := Option.isSome_iff_exists.mp hs
    obtain ⟨pre, post, heq, hpre, hpa⟩ := find?_first _ entries a ha
    simp only [Bool.and_eq_true] at hpa
    refine ⟨pre, a, post, heq, ?_, hpa.1, hpa.2, ?_⟩
    · unfold find_matching_audio
      rw [hnone1, ha]
    · intro x hx hcon
      have h5 := hpre x hx
      simp [hcon.1, hcon.2] at h5
  · intro hno
    have hnone2 : entries.find? (fun e => e.2 && is_audio_file env e.1) = none := by
      rw [List.find?_eq_none]
      intro x hx hpx
      simp only [Bool.and_eq_true] at hpx
      exact hno ⟨x, hx, hpx.1, hpx.2⟩
    have hnone1 : entries.find? (fun e =>
        e.2 && is_audio_file env e.1 && (e.1.stem == video_path.stem)) = none := by
      rw [List.find?_eq_none]
      intro x hx hpx
      simp only [Bool.and_eq_true, beq_iff_eq] at hpx
      exact hno ⟨x, hx, hpx.1.1, hpx.1.2⟩
    unfold find_matching_audio
    rw [hnone1, hnone2]

/-- Witness for C8: the first stem match is selected in a concrete listing,
and an empty listing yields `none`. -/
theorem c8_witness :
    (∃ pre e post, entriesDemo = pre ++ e :: post ∧
      find_matching_audio envDemo entriesDemo videoDemo = some e.1 ∧
      e.2 = true ∧ is_audio_file envDemo e.1 = true ∧ e.1.stem = videoDemo.stem ∧
      ∀ x ∈ pre, ¬(x.2 = true ∧ is_audio_file envDemo x.1 = true ∧
        x.1.stem = videoDemo.stem)) ∧
    find_matching_audio envDemo [] videoDemo = none :=
  ⟨(c8_audio_selection envDemo entriesDemo videoDemo).1
      ⟨(⟨"input_audio", "clip", ".mp3"⟩, true), by decide, rfl, by decide, rfl⟩,
   (c8_audio_selection envDemo [] videoDemo).2.2
      (by rintro ⟨e, he, -⟩; cases he)⟩

/-! ## The idempotency-check race (claim C9) -/

set_option maxRecDepth 8192 in
theorem raceInv_step : ∀ (s : RaceState) (t : Bool),
    raceInv s = true → raceInv (raceStep s t) = true := by decide

theorem raceInv_fold : ∀ (sched : List Bool) (s : RaceState),
    raceInv s = true → raceInv (sched.foldl raceStep s) = true := by
  intro sched
  induction sched with
  | nil => intro s h; exact h
  | cons t rest ih => intro s h; exact ih _ (raceInv_step s t h)

theorem raceInv_run (sched : List Bool) : raceInv (raceRun sched) = true :=
  raceInv_fold sched raceInit (by decide)

/-- C9 counterexample: the schedule in which both threads pass the
idempotency check before either acquires the lock makes both of them
render — two renders for one input path, refuting "never two renders".
The check is not repeated after lock acquisition. -/
theorem c9_counterexample :
    numRenders (raceRun [false, true, false, false, true, true]) = 2 ∧
    bothDone (raceRun [false, true, false, false, true, true]) = true ∧
    numSkips (raceRun [false, true, false, false, true, true]) = 0 := by
  decide

set_option maxRecDepth 8192 in
/-- C9 amended: for every interleaving of two creation events on the same
fresh input path, once both calls finish there is exactly one committed
output file and at most one skip, and at least one but possibly two renders
(the single-flight lock is held only across rendering, and the
output-exists check is not repeated under it). -/
theorem c9_amended_race (sched : List Bool)
    (h : bothDone (raceRun sched) = true) :
    (raceRun sched).outExists = true ∧
    numSkips (raceRun sched) ≤ 1 ∧
    1 ≤ numRenders (raceRun sched) ∧ numRenders (raceRun sched) ≤ 2 := by
  have hinv := raceInv_run sched
  revert h hinv
  generalize raceRun sched = s
  revert s
  decide

/-- Witness for C9 at a concrete completed schedule (one render, one
skip). -/
theorem c9_witness :
    (raceRun [false, false, false, true]).outExists = true ∧
    numSkips (raceRun [false, false, false, true]) ≤ 1 ∧
    1 ≤ numRenders (raceRun [false, false, false, true]) ∧
    numRenders (raceRun [false, false, false, true]) ≤ 2 :=
  c9_amended_race [false, false, false, true] (by decide)

end Watermark
